import Mathlib

/-
Shallow embedding of the s3reader crate (src/lib.rs).

Modelling conventions:
- u64 values are natural numbers below 2^64; u64 additions and
  subtractions are checked: a result outside the representable range is
  `none`, modelling the arithmetic-overflow trap of a checked build
  (release builds wrap instead; in either build the mathematical result
  is not produced).
- `none` at the level of a whole operation models a process abort
  (an arithmetic trap, an out-of-bounds byte slice, or the `expect` in
  `S3Reader::len`).
- The remote S3 service is an oracle `Remote`: the outcome of the
  metadata probe (`head_object`) and of each range fetch (`get_object`).
- Each stateful operation returns its outcome, the updated reader, and
  the list of remote range fetches it issued, in order.
- Byte strings are lists of naturals; the Rust `&str` input of the URI
  parser is its list of UTF-8 bytes, so that the byte-granular slicing of
  `uri[0..5]` (including its panic on a non-boundary byte 5) is exact.
-/

deriving instance DecidableEq for Except

def U64_LIMIT : Nat := 2 ^ 64

/-- Checked u64 addition: `none` models the overflow trap. -/
def u64add (a b : Nat) : Option Nat :=
  if a + b < U64_LIMIT then some (a + b) else none

/-- Checked u64 subtraction: `none` models the underflow trap. -/
def u64sub (a b : Nat) : Option Nat :=
  if b ≤ a then some (a - b) else none

/-- The error enum `S3ReaderError` of lib.rs. -/
inductive S3ReaderError where
  | missingS3Protocol
  | missingObjectUri
  | objectNotFetched (detail : String)
  | invalidContent
  | invalidRange (f t : Nat)
deriving DecidableEq

/-- The parsed `(bucket, key)` pair, `S3ObjectUri` in lib.rs, as UTF-8
    bytes. -/
structure S3ObjectUri where
  bucket : List Nat
  key : List Nat
deriving DecidableEq

/-- The five bytes of the fixed scheme `s3://`. -/
def schemeBytes : List Nat := [115, 51, 58, 47, 47]

/-- The UTF-8 bytes of an ASCII string (code point = byte for ASCII). -/
def strBytes (s : String) : List Nat := s.toList.map Char.toNat

/-- Whether a byte is a UTF-8 continuation byte (0x80..0xBF). A position
    holding such a byte is not a char boundary of a Rust str, and byte
    slicing there panics. -/
def utf8Cont (b : Nat) : Bool := decide (128 ≤ b ∧ b < 192)

/-- Rust `str::find` for the char '/' over UTF-8 bytes: the byte index of
    the first 0x2F byte (in valid UTF-8, 0x2F occurs only as the one-byte
    char '/'). -/
def find_byte (b : Nat) : List Nat → Option Nat
  | [] => none
  | a :: rest => if a = b then some 0 else (find_byte b rest).map (· + 1)

/-- `S3ObjectUri::new` of lib.rs, over the UTF-8 bytes of the input.
    `none` models the byte-slice panics: `uri[0..5]` panics when the input
    is shorter than 5 bytes or byte 5 is not a char boundary, and
    `uri[idx + 6..]` when byte idx + 6 is not a char boundary (impossible
    for valid UTF-8, where a continuation byte cannot follow the one-byte
    char '/'). The end of the bucket slice, byte idx + 5, holds the found
    0x2F, which is never a continuation byte, so that slice cannot panic. -/
def S3ObjectUri.new (uri : List Nat) : Option (Except S3ReaderError S3ObjectUri) :=
  if uri.length < 5 then none
  else if utf8Cont (uri.getD 5 0) then none
  else if uri.take 5 ≠ schemeBytes then some (.error .missingS3Protocol)
  else match find_byte 47 (uri.drop 5) with
    | some idx =>
      if utf8Cont (uri.getD (idx + 6) 0) then none
      else some (.ok ⟨(uri.drop 5).take idx, uri.drop (idx + 6)⟩)
    | none => some (.error .missingObjectUri)

/-- Outcome of one remote `get_object` range request. -/
inductive FetchOutcome where
  | ok (bytes : List Nat)
  | sdkError (detail : String)
  | badBody
deriving DecidableEq

/-- The remote S3 service, as an oracle: the result of the metadata probe
    and the outcome of each range fetch. -/
structure Remote where
  headResult : Except String Nat
  fetch : Nat → Nat → FetchOutcome

/-- The reader state: the fields `pos` and `header` of `S3Reader`
    (the header is reduced to the `content_length` it carries). -/
structure S3Reader where
  pos : Nat
  header : Option Nat
deriving DecidableEq

/-- `S3Reader::len` of lib.rs: the cached `content_length` if present,
    otherwise the metadata probe is performed and cached; `none` models
    the process abort (`expect`) when the probe fails. -/
def S3Reader.len (rem : Remote) (r : S3Reader) : Option (Nat × S3Reader) :=
  match r.header with
  | some n => some (n, r)
  | none =>
    match rem.headResult with
    | .ok n => some (n, { r with header := some n })
    | .error _ => none

/-- `S3Reader::read_range` of lib.rs: validates the range against the
    object length (short-circuit: the length is only resolved when
    `to ≥ from`), then issues one remote range fetch for `[f, t]`.
    The trace component lists the range fetches issued. -/
def S3Reader.read_range (rem : Remote) (r : S3Reader) (f t : Nat) :
    Option (Except S3ReaderError (List Nat) × S3Reader × List (Nat × Nat)) :=
  if t < f then some (.error (.invalidRange f t), r, [])
  else
    match S3Reader.len rem r with
    | none => none
    | some (n, r1) =>
      if f > n then some (.error (.invalidRange f t), r1, [])
      else
        match rem.fetch f t with
        | .ok bs => some (.ok bs, r1, [(f, t)])
        | .sdkError d => some (.error (.objectNotFetched d), r1, [(f, t)])
        | .badBody => some (.error .invalidContent, r1, [(f, t)])

/-- `<S3Reader as Read>::read` of lib.rs. The `ok` payload is the list of
    bytes copied into the buffer (the Rust return value is their count). -/
def S3Reader.read (rem : Remote) (r : S3Reader) (buflen : Nat) :
    Option (Except S3ReaderError (List Nat) × S3Reader × List (Nat × Nat)) :=
  match S3Reader.len rem r with
  | none => none
  | some (n, r1) =>
    if r1.pos ≥ n then some (.ok [], r1, [])
    else
      match u64add r1.pos buflen with
      | none => none
      | some end_pos =>
        match u64sub end_pos 1 with
        | none => none
        | some last =>
          match S3Reader.read_range rem r1 r1.pos last with
          | none => none
          | some (.error e, r2, tr) => some (.error e, r2, tr)
          | some (.ok bs, r2, tr) =>
            match u64add r2.pos bs.length with
            | none => none
            | some p2 => some (.ok (bs.take buflen), { r2 with pos := p2 }, tr)

/-- `<S3Reader as Read>::read_to_end` of lib.rs. The `ok` payload is the
    list of bytes appended to the output vector (the Rust return value is
    their count). -/
def S3Reader.read_to_end (rem : Remote) (r : S3Reader) :
    Option (Except S3ReaderError (List Nat) × S3Reader × List (Nat × Nat)) :=
  match S3Reader.len rem r with
  | none => none
  | some (n, r1) =>
    match u64sub n 1 with
    | none => none
    | some last =>
      match S3Reader.read_range rem r1 r1.pos last with
      | none => none
      | some (.error e, r2, tr) => some (.error e, r2, tr)
      | some (.ok bs, r2, tr) =>
        match u64add r2.pos bs.length with
        | none => none
        | some p2 => some (.ok bs, { r2 with pos := p2 }, tr)

/-- `std::io::SeekFrom`. -/
inductive SeekFrom where
  | start (x : Nat)
  | current (x : Int)
  | fromEnd (x : Int)
deriving DecidableEq

/-- The seek error of lib.rs (`position cannot be negative`). -/
inductive SeekError where
  | negativePosition
deriving DecidableEq

/-- The pure seek arithmetic `s3reader_seek` of lib.rs. `none` models the
    checked-arithmetic trap when `cursor + x` does not fit in u64. -/
def s3reader_seek (len cursor : Nat) (pos : SeekFrom) :
    Option (Except SeekError Nat) :=
  match pos with
  | .start x => some (.ok (min x len))
  | .current x =>
    if 0 ≤ x then
      match u64add cursor x.toNat with
      | none => none
      | some s => some (.ok (min s len))
    else
      if x.natAbs > cursor then some (.error .negativePosition)
      else (u64sub cursor x.natAbs).map .ok
  | .fromEnd x =>
    if 0 ≤ x then some (.ok len)
    else
      if x.natAbs > len then some (.error .negativePosition)
      else (u64sub len x.natAbs).map .ok

/-- `<S3Reader as Seek>::seek` of lib.rs: resolves the length, runs the
    pure seek arithmetic, and stores the new cursor on success. -/
def S3Reader.seek (rem : Remote) (r : S3Reader) (sf : SeekFrom) :
    Option (Except SeekError Nat × S3Reader) :=
  match S3Reader.len rem r with
  | none => none
  | some (n, r1) =>
    match s3reader_seek n r1.pos sf with
    | none => none
    | some (.ok x) => some (.ok x, { r1 with pos := x })
    | some (.error e) => some (.error e, r1)

/-- The trace of range fetches issued by a read-family operation. -/
def rrTrace
    (o : Option (Except S3ReaderError (List Nat) × S3Reader × List (Nat × Nat))) :
    List (Nat × Nat) :=
  match o with
  | some (_, _, tr) => tr
  | none => []

/-- Whether a read-family outcome is an `invalidRange` error. -/
def rrIsInvalidRange
    (o : Option (Except S3ReaderError (List Nat) × S3Reader × List (Nat × Nat))) :
    Bool :=
  match o with
  | some (.error (.invalidRange _ _), _, _) => true
  | _ => false

/-- Whether a seek outcome is an error. -/
def seekIsErr (o : Option (Except SeekError Nat)) : Bool :=
  match o with
  | some (.error _) => true
  | _ => false

/-
Concrete remotes used by witnesses and counterexamples below.
-/

def remC1 : Remote := ⟨.ok 2, fun _ _ => .ok [7, 8]⟩

def remC1w : Remote := ⟨.ok 10, fun _ _ => .ok [1, 2]⟩

def remC3 : Remote := ⟨.error "offline", fun _ _ => .sdkError "boom"⟩

def remBad : Remote := ⟨.error "network down", fun _ _ => .badBody⟩

def rem6 : Remote := ⟨.ok 10, fun _ _ => .ok []⟩

def rem7 : Remote := ⟨.ok 9, fun _ _ => .badBody⟩

lemma find_byte_of_not_mem (b : Nat) (l : List Nat) (h : b ∉ l) :
    find_byte b l = none := by
  induction l with
  | nil => rfl
  | cons a rest ih =>
    have h2 : ¬ (a = b) := fun hab => h (by simp [hab])
    have ih' := ih (fun hm => h (List.mem_cons_of_mem a hm))
    simp [find_byte, h2, ih']

lemma find_byte_append (b : Nat) (l1 l2 : List Nat) (h : b ∉ l1) :
    find_byte b (l1 ++ b :: l2) = some l1.length := by
  induction l1 with
  | nil => simp [find_byte]
  | cons a rest ih =>
    have h2 : ¬ (a = b) := fun hab => h (by simp [hab])
    have ih' := ih (fun hm => h (List.mem_cons_of_mem a hm))
    simp [find_byte, h2, ih']

lemma u64add_eq_some {a b c : Nat} (h : u64add a b = some c) :
    c = a + b ∧ a + b < U64_LIMIT := by
  unfold u64add at h
  split at h
  · exact ⟨(Option.some.inj h).symm, by assumption⟩
  · exact absurd h (by simp)

lemma u64sub_eq_some {a b c : Nat} (h : u64sub a b = some c) :
    c = a - b ∧ b ≤ a := by
  unfold u64sub at h
  split at h
  · exact ⟨(Option.some.inj h).symm, by assumption⟩
  · exact absurd h (by simp)

lemma seek_ok_le (len cursor : Nat) (sf : SeekFrom) (res : Nat)
    (hcl : cursor ≤ len) (h : s3reader_seek len cursor sf = some (.ok res)) :
    res ≤ len := by
  cases sf with
  | start x =>
    simp [s3reader_seek] at h
    omega
  | current y =>
    by_cases hy : 0 ≤ y
    · simp only [s3reader_seek, if_pos hy] at h
      cases hadd : u64add cursor y.toNat with
      | none => rw [hadd] at h; simp at h
      | some s =>
        rw [hadd] at h
        simp at h
        omega
    · simp only [s3reader_seek, if_neg hy] at h
      by_cases hgt : y.natAbs > cursor
      · rw [if_pos hgt] at h; simp at h
      · rw [if_neg hgt] at h
        cases hsub : u64sub cursor y.natAbs with
        | none => rw [hsub] at h; simp at h
        | some v =>
          rw [hsub] at h
          simp at h
          obtain ⟨hv, -⟩ := u64sub_eq_some hsub
          omega
  | fromEnd y =>
    by_cases hy : 0 ≤ y
    · simp only [s3reader_seek, if_pos hy] at h
      simp at h
      omega
    · simp only [s3reader_seek, if_neg hy] at h
      by_cases hgt : y.natAbs > len
      · rw [if_pos hgt] at h; simp at h
      · rw [if_neg hgt] at h
        cases hsub : u64sub len y.natAbs with
        | none => rw [hsub] at h; simp at h
        | some v =>
          rw [hsub] at h
          simp at h
          obtain ⟨hv, -⟩ := u64sub_eq_some hsub
          omega

/-- C1 (amended): read with cursor < length and a non-empty buffer issues
    exactly one range fetch for [cursor, cursor + buflen - 1] (not clamped
    to the object length), copies all returned bytes into the buffer,
    succeeds even with fewer bytes than requested, and advances the cursor
    by exactly the number of bytes actually copied. -/
theorem read_one_fetch_unclamped (rem : Remote) (n p buflen : Nat) (bs : List Nat)
    (hp : p < n) (hb : 1 ≤ buflen) (hfit : p + buflen < U64_LIMIT)
    (hfetch : rem.fetch p (p + buflen - 1) = .ok bs)
    (hbs : bs.length ≤ buflen) :
    S3Reader.read rem ⟨p, some n⟩ buflen =
      some (.ok bs, ⟨p + bs.length, some n⟩, [(p, p + buflen - 1)]) := by
  have hge : ¬ (p ≥ n) := by omega
  have hadd : u64add p buflen = some (p + buflen) := by simp [u64add, hfit]
  have hsub : u64sub (p + buflen) 1 = some (p + buflen - 1) := by
    simp [u64sub]; omega
  have htf : ¬ (p + buflen - 1 < p) := by omega
  have hfn : ¬ (p > n) := by omega
  have hadd2 : u64add p bs.length = some (p + bs.length) := by
    simp [u64add]; omega
  have htake : bs.take buflen = bs := List.take_of_length_le hbs
  simp [S3Reader.read, S3Reader.len, hge, hadd, hsub, S3Reader.read_range,
    htf, hfn, hfetch, hadd2, htake]

theorem read_one_fetch_unclamped_witness :
    S3Reader.read remC1w ⟨0, some 10⟩ 6 =
      some (.ok [1, 2], ⟨0 + [1, 2].length, some 10⟩, [(0, 0 + 6 - 1)]) :=
  read_one_fetch_unclamped remC1w 10 0 6 [1, 2] (by decide) (by decide)
    (by decide) rfl (by decide)

/-- C1 counterexample: object length 2, cursor 0, buffer of 5 bytes: the
    single fetch issued is for [0, 4], not for [0, min(0 + 5, 2) - 1] = [0, 1]
    as the claim states. -/
theorem read_fetch_range_not_clamped_cex :
    rrTrace (S3Reader.read remC1 ⟨0, some 2⟩ 5) = [(0, 4)] ∧
    [(0, 4)] ≠ [(0, min (0 + 5) 2 - 1)] := by decide

/-- C2 (amended): branch-wise value of the pure seek computation; the
    Current branch with nonnegative offset holds whenever cursor + x fits
    in u64 (otherwise the checked addition traps). -/
theorem seek_branch_spec (len cursor x_ : Nat) (y : Int)
    (_hlen : len < U64_LIMIT) (_hcur : cursor < U64_LIMIT)
    (_hx : x_ < U64_LIMIT) :
    (s3reader_seek len cursor (.start x_) = some (.ok (min x_ len))) ∧
    (0 ≤ y → cursor + y.toNat < U64_LIMIT →
      s3reader_seek len cursor (.current y) =
        some (.ok (min (cursor + y.toNat) len))) ∧
    (y < 0 → y.natAbs ≤ cursor →
      s3reader_seek len cursor (.current y) = some (.ok (cursor - y.natAbs))) ∧
    (y < 0 → cursor < y.natAbs →
      s3reader_seek len cursor (.current y) = some (.error .negativePosition)) ∧
    (0 ≤ y → s3reader_seek len cursor (.fromEnd y) = some (.ok len)) ∧
    (y < 0 → y.natAbs ≤ len →
      s3reader_seek len cursor (.fromEnd y) = some (.ok (len - y.natAbs))) ∧
    (y < 0 → len < y.natAbs →
      s3reader_seek len cursor (.fromEnd y) = some (.error .negativePosition)) := by
  refine ⟨rfl, ?_, ?_, ?_, ?_, ?_, ?_⟩
  · intro hy hfit
    simp [s3reader_seek, hy, u64add, hfit]
  · intro hy hle
    have hy' : ¬ 0 ≤ y := by omega
    have hgt : ¬ y.natAbs > cursor := by omega
    simp [s3reader_seek, hy', hgt, u64sub, hle]
  · intro hy hgt
    have hy' : ¬ 0 ≤ y := by omega
    simp [s3reader_seek, hy', hgt]
  · intro hy
    simp [s3reader_seek, hy]
  · intro hy hle
    have hy' : ¬ 0 ≤ y := by omega
    have hgt : ¬ y.natAbs > len := by omega
    simp [s3reader_seek, hy', hgt, u64sub, hle]
  · intro hy hgt
    have hy' : ¬ 0 ≤ y := by omega
    simp [s3reader_seek, hy', hgt]

theorem seek_branch_spec_witness :
    s3reader_seek 10 4 (.current 3) = some (.ok (min (4 + (3 : Int).toNat) 10)) :=
  (seek_branch_spec 10 4 0 3 (by decide) (by decide) (by decide)).2.1
    (by decide) (by decide)

/-- C2 counterexample: at len 7, cursor u64 MAX, Current(5), the claim
    predicts min(cursor + 5, 7) = 7, but the checked addition traps. -/
theorem seek_current_overflow_cex :
    s3reader_seek 7 (2 ^ 64 - 1) (.current 5) = none ∧
    some (Except.ok (min (2 ^ 64 - 1 + (5 : Int).toNat) 7)) ≠
      s3reader_seek 7 (2 ^ 64 - 1) (.current 5) := by decide

/-- C3 (amended): remote fetch failures surface as typed errors from
    read_range, but length resolution with no cached header and a failing
    probe aborts instead of returning a typed error. -/
theorem error_propagation_amended (rem : Remote) (p n f t : Nat) (d s : String)
    (hhead : rem.headResult = .error s) :
    (rem.fetch f t = .sdkError d → f ≤ t → f ≤ n →
      S3Reader.read_range rem ⟨p, some n⟩ f t =
        some (.error (.objectNotFetched d), ⟨p, some n⟩, [(f, t)])) ∧
    (rem.fetch f t = .badBody → f ≤ t → f ≤ n →
      S3Reader.read_range rem ⟨p, some n⟩ f t =
        some (.error .invalidContent, ⟨p, some n⟩, [(f, t)])) ∧
    S3Reader.len rem ⟨p, none⟩ = none := by
  refine ⟨?_, ?_, ?_⟩
  · intro hf h1 h2
    simp [S3Reader.read_range, Nat.not_lt.mpr h1, S3Reader.len,
      Nat.not_lt.mpr h2, hf]
  · intro hf h1 h2
    simp [S3Reader.read_range, Nat.not_lt.mpr h1, S3Reader.len,
      Nat.not_lt.mpr h2, hf]
  · simp [S3Reader.len, hhead]

theorem error_propagation_amended_witness :
    S3Reader.read_range remC3 ⟨0, some 9⟩ 2 5 =
      some (.error (.objectNotFetched "boom"), ⟨0, some 9⟩, [(2, 5)]) :=
  (error_propagation_amended remC3 0 9 2 5 "boom" "offline" rfl).1 rfl
    (by decide) (by decide)

/-- C3 counterexample: read on a reader with no cached length and a failing
    metadata probe aborts (none) instead of returning a typed error. -/
theorem len_probe_failure_aborts_cex :
    S3Reader.read remBad ⟨0, none⟩ 10 = none := by decide

/-- C4 (amended): for every input of at least 5 bytes whose byte 5 is a
    char boundary, parsing returns missingS3Protocol when the first five
    bytes are not "s3://", missingObjectUri when no '/' occurs after the
    prefix part, and otherwise yields the bucket up to the first '/' and
    the key after it (the key not opening with a continuation byte, as
    valid UTF-8 guarantees after the one-byte char '/'). -/
theorem uri_parse_amended (uri bkt k : List Nat)
    (h5 : 5 ≤ uri.length) (hb : utf8Cont (uri.getD 5 0) = false) :
    (uri.take 5 ≠ schemeBytes →
      S3ObjectUri.new uri = some (.error .missingS3Protocol)) ∧
    (uri = schemeBytes ++ (bkt ++ 47 :: k) → 47 ∉ bkt →
      utf8Cont (k.getD 0 0) = false →
      S3ObjectUri.new uri = some (.ok ⟨bkt, k⟩)) ∧
    (47 ∉ uri.drop 5 → uri.take 5 = schemeBytes →
      S3ObjectUri.new uri = some (.error .missingObjectUri)) := by
  have hlen : ¬ uri.length < 5 := by omega
  simp only [List.getD_eq_getElem?_getD] at hb
  refine ⟨?_, ?_, ?_⟩
  · intro hms
    simp [S3ObjectUri.new, hlen, hb, hms]
  · intro hu hmem hk
    simp only [List.getD_eq_getElem?_getD] at hk
    subst hu
    have hlen' : ¬ (schemeBytes ++ (bkt ++ 47 :: k)).length < 5 := by
      simp [schemeBytes]
    have htake : (schemeBytes ++ (bkt ++ 47 :: k)).take 5 = schemeBytes :=
      List.take_left' rfl
    have hdrop : (schemeBytes ++ (bkt ++ 47 :: k)).drop 5 = bkt ++ 47 :: k :=
      List.drop_left' rfl
    have hfind : find_byte 47 (bkt ++ 47 :: k) = some bkt.length :=
      find_byte_append 47 bkt k hmem
    have hbkt : (bkt ++ 47 :: k).take bkt.length = bkt := List.take_left' rfl
    have hkey : (schemeBytes ++ (bkt ++ 47 :: k)).drop (bkt.length + 6) = k := by
      have hassoc : schemeBytes ++ (bkt ++ 47 :: k) =
          (schemeBytes ++ bkt ++ [47]) ++ k := by simp
      rw [hassoc]
      exact List.drop_left' (by simp [schemeBytes])
    have hlen6 : (schemeBytes ++ bkt ++ [47]).length = bkt.length + 6 := by
      simp [schemeBytes]
    have hkd : (schemeBytes ++ (bkt ++ 47 :: k))[bkt.length + 6]? = k[0]? := by
      have hassoc : schemeBytes ++ (bkt ++ 47 :: k) =
          (schemeBytes ++ bkt ++ [47]) ++ k := by simp
      rw [hassoc, List.getElem?_append_right (by omega), hlen6]
      simp
    have hkb : utf8Cont (((schemeBytes ++ (bkt ++ 47 :: k))[bkt.length + 6]?).getD
        0) = false := by rw [hkd]; exact hk
    have harith : 5 ≤ schemeBytes.length + (bkt.length + (k.length + 1)) := by
      simp [schemeBytes]
    simp [S3ObjectUri.new, hlen', hb, htake, hdrop, hfind, hbkt, hkey, hkb,
      harith]
  · intro hmem htake
    simp [S3ObjectUri.new, hlen, hb, htake, find_byte_of_not_mem 47 _ hmem]

theorem uri_parse_amended_witness :
    S3ObjectUri.new (strBytes "s3://bucket-a/path/to/file.bin") =
      some (.ok ⟨strBytes "bucket-a", strBytes "path/to/file.bin"⟩) :=
  (uri_parse_amended (strBytes "s3://bucket-a/path/to/file.bin")
    (strBytes "bucket-a") (strBytes "path/to/file.bin") (by decide)
    (by decide)).2.1 (by decide) (by decide) (by decide)

/-- C4 counterexample: the empty input does not begin with "s3://", yet
    parsing does not return missingS3Protocol: the byte slice uri[0..5]
    traps on inputs shorter than 5 bytes. -/
theorem uri_parse_short_input_cex :
    S3ObjectUri.new [] = none ∧
    (none : Option (Except S3ReaderError S3ObjectUri)) ≠
      some (.error .missingS3Protocol) := by decide

/-- C5: failing input for overflow safety: at cursor u64 MAX with Current(1)
    the addition cursor + x leaves the u64 range, so the seek computation
    traps (and a release build wraps) instead of computing
    min(cursor + 1, len) = 100 exactly. -/
theorem seek_overflow_failing_input :
    s3reader_seek 100 (2 ^ 64 - 1) (.current 1) = none := by decide

/-- C6 (amended): with cursor ≤ len, every successful seek result is ≤ len;
    Start, Current with nonnegative offset and End with nonnegative offset
    never return an error; and the reader-level seek, read and read_to_end
    operations keep the cursor at most the known length (read under a remote
    returning at most the bytes available from the cursor). -/
theorem seek_bounds_amended (len cursor x_ : Nat) (y : Int) (sf : SeekFrom)
    (res buflen : Nat) (rem : Remote) (r0 r1 : S3Reader)
    (bs bs2 : List Nat) (q : Except SeekError Nat)
    (out : Except S3ReaderError (List Nat)) (tr : List (Nat × Nat))
    (hcl : cursor ≤ len) :
    (s3reader_seek len cursor sf = some (.ok res) → res ≤ len) ∧
    (seekIsErr (s3reader_seek len cursor (.start x_)) = false) ∧
    (0 ≤ y → seekIsErr (s3reader_seek len cursor (.current y)) = false) ∧
    (0 ≤ y → seekIsErr (s3reader_seek len cursor (.fromEnd y)) = false) ∧
    (r0.header = some len → r0.pos = cursor →
      S3Reader.seek rem r0 sf = some (q, r1) → r1.pos ≤ len) ∧
    (r0.header = some len → r0.pos = cursor →
      rem.fetch cursor (cursor + buflen - 1) = .ok bs →
      bs.length ≤ len - cursor →
      S3Reader.read rem r0 buflen = some (out, r1, tr) → r1.pos ≤ len) ∧
    (r0.header = some len → r0.pos = cursor →
      rem.fetch cursor (len - 1) = .ok bs2 →
      bs2.length ≤ len - cursor →
      S3Reader.read_to_end rem r0 = some (out, r1, tr) → r1.pos ≤ len) := by
  refine ⟨fun h => seek_ok_le len cursor sf res hcl h, ?_, ?_, ?_, ?_, ?_, ?_⟩
  · simp [s3reader_seek, seekIsErr]
  · intro hy
    simp only [s3reader_seek, if_pos hy]
    cases hadd : u64add cursor y.toNat <;> simp [seekIsErr]
  · intro hy
    simp [s3reader_seek, hy, seekIsErr]
  · -- seek keeps the cursor within the length
    intro hh hp hs
    obtain ⟨p0, hdr⟩ := r0
    have hh' : hdr = some len := hh
    subst hh'
    have hp' : p0 = cursor := hp
    rw [← hp'] at hcl
    simp only [S3Reader.seek, S3Reader.len] at hs
    cases hres : s3reader_seek len p0 sf with
    | none => rw [hres] at hs; simp at hs
    | some v =>
      rw [hres] at hs
      cases v with
      | ok x =>
        simp at hs
        have hle := seek_ok_le len p0 sf x hcl hres
        rw [← hs.2]
        exact hle
      | error e =>
        simp at hs
        rw [← hs.2]
        exact hcl
  · -- read keeps the cursor within the length
    intro hh hp hfetch hbl hread
    obtain ⟨p0, hdr⟩ := r0
    have hh' : hdr = some len := hh
    subst hh'
    have hp' : p0 = cursor := hp
    rw [← hp'] at hcl hfetch hbl
    by_cases hge : p0 ≥ len
    · have hcomp : S3Reader.read rem ⟨p0, some len⟩ buflen =
          some (.ok [], ⟨p0, some len⟩, []) := by
        simp [S3Reader.read, S3Reader.len, hge]
      rw [hcomp] at hread
      simp at hread
      rw [← hread.2.1]
      exact hcl
    · cases hadd : u64add p0 buflen with
      | none =>
        have hcomp : S3Reader.read rem ⟨p0, some len⟩ buflen = none := by
          simp [S3Reader.read, S3Reader.len, hge, hadd]
        rw [hcomp] at hread
        exact absurd hread (by simp)
      | some ep =>
        obtain ⟨hep, hfit⟩ := u64add_eq_some hadd
        cases hsub : u64sub ep 1 with
        | none =>
          have hcomp : S3Reader.read rem ⟨p0, some len⟩ buflen = none := by
            simp [S3Reader.read, S3Reader.len, hge, hadd, hsub]
          rw [hcomp] at hread
          exact absurd hread (by simp)
        | some last =>
          obtain ⟨hlast, hone⟩ := u64sub_eq_some hsub
          by_cases htf : last < p0
          · have hcomp : S3Reader.read rem ⟨p0, some len⟩ buflen =
                some (.error (.invalidRange p0 last), ⟨p0, some len⟩, []) := by
              simp [S3Reader.read, S3Reader.len, hge, hadd, hsub,
                S3Reader.read_range, htf]
            rw [hcomp] at hread
            simp at hread
            rw [← hread.2.1]
            exact hcl
          · have hlast2 : last = p0 + buflen - 1 := by omega
            subst hlast2
            have hfn : ¬ p0 > len := by omega
            cases hadd2 : u64add p0 bs.length with
            | none =>
              have hcomp : S3Reader.read rem ⟨p0, some len⟩ buflen = none := by
                simp [S3Reader.read, S3Reader.len, hge, hadd, hsub,
                  S3Reader.read_range, htf, hfn, hfetch, hadd2]
              rw [hcomp] at hread
              exact absurd hread (by simp)
            | some p2 =>
              obtain ⟨hp2, -⟩ := u64add_eq_some hadd2
              have hcomp : S3Reader.read rem ⟨p0, some len⟩ buflen =
                  some (.ok (bs.take buflen), ⟨p2, some len⟩,
                    [(p0, p0 + buflen - 1)]) := by
                simp [S3Reader.read, S3Reader.len, hge, hadd, hsub,
                  S3Reader.read_range, htf, hfn, hfetch, hadd2]
              rw [hcomp] at hread
              simp at hread
              rw [← hread.2.1]
              simp
              omega
  · -- read_to_end keeps the cursor within the length
    intro hh hp hfetch hbl hread
    obtain ⟨p0, hdr⟩ := r0
    have hh' : hdr = some len := hh
    subst hh'
    have hp' : p0 = cursor := hp
    rw [← hp'] at hcl hfetch hbl
    cases hsub : u64sub len 1 with
    | none =>
      have hcomp : S3Reader.read_to_end rem ⟨p0, some len⟩ = none := by
        simp [S3Reader.read_to_end, S3Reader.len, hsub]
      rw [hcomp] at hread
      exact absurd hread (by simp)
    | some last =>
      obtain ⟨hlast, hone⟩ := u64sub_eq_some hsub
      by_cases htf : last < p0
      · have hcomp : S3Reader.read_to_end rem ⟨p0, some len⟩ =
            some (.error (.invalidRange p0 last), ⟨p0, some len⟩, []) := by
          simp [S3Reader.read_to_end, S3Reader.len, hsub,
            S3Reader.read_range, htf]
        rw [hcomp] at hread
        simp at hread
        rw [← hread.2.1]
        exact hcl
      · have hlast2 : last = len - 1 := by omega
        subst hlast2
        have hfn : ¬ p0 > len := by omega
        cases hadd2 : u64add p0 bs2.length with
        | none =>
          have hcomp : S3Reader.read_to_end rem ⟨p0, some len⟩ = none := by
            simp [S3Reader.read_to_end, S3Reader.len, hsub,
              S3Reader.read_range, htf, hfn, hfetch, hadd2]
          rw [hcomp] at hread
          exact absurd hread (by simp)
        | some p2 =>
          obtain ⟨hp2, -⟩ := u64add_eq_some hadd2
          have hcomp : S3Reader.read_to_end rem ⟨p0, some len⟩ =
              some (.ok bs2, ⟨p2, some len⟩, [(p0, len - 1)]) := by
            simp [S3Reader.read_to_end, S3Reader.len, hsub,
              S3Reader.read_range, htf, hfn, hfetch, hadd2]
          rw [hcomp] at hread
          simp at hread
          rw [← hread.2.1]
          simp
          omega

theorem seek_bounds_amended_witness :
    seekIsErr (s3reader_seek 10 3 (.start 99)) = false :=
  (seek_bounds_amended 10 3 99 0 (.start 99) 4 2 rem6 ⟨3, some 10⟩ ⟨4, some 10⟩
    [] [] (.ok 4) (.ok []) [] (by decide)).2.1

/-- C6 counterexample: len 10, cursor 100 (beyond the length), Current(-5)
    succeeds with result 95, which exceeds len, refuting 0 ≤ result ≤ len
    for unconstrained cursors. -/
theorem seek_result_exceeds_len_cex :
    s3reader_seek 10 100 (.current (-5)) = some (.ok 95) ∧ ¬ (95 ≤ 10) := by
  decide

/-- C7: read_range fails with invalidRange(f, t) exactly when t < f or
    f > length; when both preconditions hold, exactly one remote range fetch
    for [f, t] is issued and the outcome is never invalidRange. -/
theorem read_range_invalid_iff (rem : Remote) (p n f t : Nat) :
    ((t < f ∨ f > n) → S3Reader.read_range rem ⟨p, some n⟩ f t =
      some (.error (.invalidRange f t), ⟨p, some n⟩, [])) ∧
    (f ≤ t → f ≤ n →
      rrTrace (S3Reader.read_range rem ⟨p, some n⟩ f t) = [(f, t)] ∧
      rrIsInvalidRange (S3Reader.read_range rem ⟨p, some n⟩ f t) = false) := by
  constructor
  · intro h
    by_cases htf : t < f
    · simp [S3Reader.read_range, htf]
    · have hfn : f > n := h.resolve_left htf
      simp [S3Reader.read_range, htf, S3Reader.len, hfn]
  · intro h1 h2
    have htf : ¬ t < f := by omega
    have hfn : ¬ f > n := by omega
    cases hf : rem.fetch f t <;>
      simp [S3Reader.read_range, htf, S3Reader.len, hfn, hf, rrTrace,
        rrIsInvalidRange]

theorem read_range_invalid_iff_witness :
    rrTrace (S3Reader.read_range rem7 ⟨0, some 9⟩ 2 5) = [(2, 5)] ∧
    rrIsInvalidRange (S3Reader.read_range rem7 ⟨0, some 9⟩ 2 5) = false :=
  (read_range_invalid_iff rem7 0 9 2 5).2 (by decide) (by decide)

/-- C8: with the cursor at or past the object length, read returns 0 bytes,
    no error, and issues no remote range fetch, for any buffer size. -/
theorem read_eof_returns_zero (rem : Remote) (r : S3Reader) (n buflen : Nat)
    (hh : r.header = some n) (hpos : n ≤ r.pos) :
    S3Reader.read rem r buflen = some (.ok [], r, []) := by
  simp [S3Reader.read, S3Reader.len, hh, hpos]

theorem read_eof_returns_zero_witness :
    S3Reader.read ⟨.ok 5, fun _ _ => .ok []⟩ ⟨5, some 5⟩ 1024 =
      some (.ok [], ⟨5, some 5⟩, []) :=
  read_eof_returns_zero ⟨.ok 5, fun _ _ => .ok []⟩ ⟨5, some 5⟩ 5 1024 rfl
    (by decide)

/-- C9: at cursor = length, read_to_end does not return success with 0 bytes:
    for positive length it requests the range [length, length - 1] and fails
    with invalidRange(length, length - 1) and no remote call; for length 0 the
    subtraction length - 1 underflows and the operation traps. -/
theorem read_to_end_at_eof (rem : Remote) (r : S3Reader) (n : Nat)
    (hh : r.header = some n) (hpos : r.pos = n) :
    (0 < n → S3Reader.read_to_end rem r =
      some (.error (.invalidRange n (n - 1)), r, [])) ∧
    (n = 0 → S3Reader.read_to_end rem r = none) := by
  constructor
  · intro hn
    have h1 : u64sub n 1 = some (n - 1) := by simp [u64sub]; omega
    have h2 : n - 1 < n := by omega
    simp [S3Reader.read_to_end, S3Reader.len, hh, h1, S3Reader.read_range,
      hpos, h2]
  · intro hn
    subst hn
    have h1 : u64sub 0 1 = none := by simp [u64sub]
    simp [S3Reader.read_to_end, S3Reader.len, hh, h1]

theorem read_to_end_at_eof_witness :
    (S3Reader.read_to_end ⟨.ok 3, fun _ _ => .ok []⟩ ⟨3, some 3⟩ =
      some (.error (.invalidRange 3 (3 - 1)), ⟨3, some 3⟩, [])) ∧
    (S3Reader.read_to_end ⟨.ok 0, fun _ _ => .ok []⟩ ⟨0, some 0⟩ = none) :=
  ⟨(read_to_end_at_eof ⟨.ok 3, fun _ _ => .ok []⟩ ⟨3, some 3⟩ 3 rfl rfl).1
      (by decide),
   (read_to_end_at_eof ⟨.ok 0, fun _ _ => .ok []⟩ ⟨0, some 0⟩ 0 rfl rfl).2 rfl⟩

/-- C10: with cursor < length, read with an empty buffer does not return 0
    bytes with success: for cursor ≥ 1 it requests [cursor, cursor - 1] and
    fails with invalidRange(cursor, cursor - 1); for cursor = 0 the
    subtraction end_pos - 1 underflows and read traps. -/
theorem read_empty_buffer_not_total (rem : Remote) (r : S3Reader) (n : Nat)
    (hh : r.header = some n) (hlt : r.pos < n) (hn : n < U64_LIMIT) :
    (1 ≤ r.pos → S3Reader.read rem r 0 =
      some (.error (.invalidRange r.pos (r.pos - 1)), r, [])) ∧
    (r.pos = 0 → S3Reader.read rem r 0 = none) := by
  have hnotge : ¬ r.pos ≥ n := by omega
  have hn2 : n < 2 ^ 64 := hn
  have hadd : u64add r.pos 0 = some r.pos := by simp [u64add, U64_LIMIT]; omega
  constructor
  · intro h1
    have hsub : u64sub r.pos 1 = some (r.pos - 1) := by simp [u64sub]; omega
    have hlt' : r.pos - 1 < r.pos := by omega
    simp [S3Reader.read, S3Reader.len, hh, hnotge, hadd, hsub,
      S3Reader.read_range, hlt']
  · intro h0
    have hsub : u64sub r.pos 1 = none := by simp [u64sub]; omega
    simp [S3Reader.read, S3Reader.len, hh, hnotge, hadd, hsub]

theorem read_empty_buffer_not_total_witness :
    (S3Reader.read ⟨.ok 2, fun _ _ => .ok []⟩ ⟨1, some 2⟩ 0 =
      some (.error (.invalidRange 1 (1 - 1)), ⟨1, some 2⟩, [])) ∧
    (S3Reader.read ⟨.ok 2, fun _ _ => .ok []⟩ ⟨0, some 2⟩ 0 = none) :=
  ⟨(read_empty_buffer_not_total ⟨.ok 2, fun _ _ => .ok []⟩ ⟨1, some 2⟩ 2 rfl
      (by decide) (by decide)).1 (by decide),
   (read_empty_buffer_not_total ⟨.ok 2, fun _ _ => .ok []⟩ ⟨0, some 2⟩ 2 rfl
      (by decide) (by decide)).2 rfl⟩
